import Mathlib

/-!
Shallow embedding of the ttxi teletext decoder (src/decoder.rs, src/chargen.rs,
src/keymap.rs, src/main.rs).  Machine integers (u8/u16/usize) are embedded as
`Nat`; the arithmetic on the modelled paths never overflows the source widths.
Terminal output is abstracted to explicit traces: `CharGen.insert_data` returns
whether it invoked `render_row`, and the `Decoder` operations return the ordered
list of grid operations they performed.  `src/coding.rs` is declared as a module
of this crate in `main.rs` but its source is not present; its functions are
modelled from the spec (§4.1) and marked `Modelled from the spec:` below.
-/

namespace Ttxi

/-- Modelled from the spec: `u8_to_ascii` from the missing `src/coding.rs`.
§4.1 `hexDigitToDisplay(nibble) -> byte`: maps a 0–15 value to the ASCII hex
digit glyph shown in the selection indicator. -/
def u8_to_ascii (b : Nat) : Nat :=
  if b < 10 then 48 + b else 55 + b

/-- Modelled from the spec: `ascii_to_u8` from the missing `src/coding.rs`,
the inverse of `hexDigitToDisplay`; total (non-hex bytes map to 0). -/
def ascii_to_u8 (c : Nat) : Nat :=
  if 48 ≤ c ∧ c < 58 then c - 48
  else if 65 ≤ c ∧ c < 71 then c - 55
  else if 97 ≤ c ∧ c < 103 then c - 87
  else 0

/-- Modelled from the spec: Hamming-8/4-style decode of one byte to one nibble
(missing `src/coding.rs`; §4.1, glossary).  Best-effort and total: the four
data bits are taken from the odd bit positions of the byte. -/
def hamming8_decode (b : Nat) : Nat :=
  (b / 2) % 2 + 2 * ((b / 8) % 2) + 4 * ((b / 32) % 2) + 8 * ((b / 128) % 2)

/-- Modelled from the spec: `mrag` from the missing `src/coding.rs`
(§4.1 `decodeAddress`): the two bytes are independently Hamming-decoded
nibbles yielding a 3-bit magazine and a 5-bit row. -/
def mrag (b0 b1 : Nat) : Nat × Nat :=
  (hamming8_decode b0 % 8, hamming8_decode b0 / 8 + 2 * hamming8_decode b1)

/-- Modelled from the spec: `hamming16_decode` from the missing `src/coding.rs`
(§4.1 `decodePageNumber`): two error-corrected nibbles, high/low, forming the
page's byte value. -/
def hamming16_decode (b0 b1 : Nat) : Nat :=
  16 * hamming8_decode b0 + hamming8_decode b1

/-- Modelled from the spec: `control_bits` from the missing `src/coding.rs`
(§4.1 `decodeControlBits`): error-corrected extraction of the control-flag
word from eight bytes; bit 0 is the erase-page flag. -/
def control_bits (bs : List Nat) : Nat :=
  bs.foldr (fun b acc => hamming8_decode b + 16 * acc) 0

/-! ## The character grid (chargen.rs)

The 26×40 byte buffer `grid: [[u8; 40]; 26]` is embedded as a total function;
all mutation goes through `insert_data`, which bounds-checks the slice indexing
(the Rust slice expression panics out of bounds, embedded as `none`). -/

abbrev Grid := Nat → Nat → Nat

/-- Read `n` consecutive bytes of a grid row (the slice
`grid[row][col .. col+n]`). -/
def readBytes (g : Grid) (row col n : Nat) : List Nat :=
  (List.range n).map fun i => g row (col + i)

/-- Overwrite `data.length` consecutive bytes of a grid row
(`copy_from_slice`). -/
def writeBytes (g : Grid) (row col : Nat) (data : List Nat) : Grid :=
  fun r c =>
    if r = row ∧ col ≤ c ∧ c < col + data.length then data.getD (c - col) 0
    else g r c

structure Margins where
  top : Nat
  left : Nat
deriving DecidableEq

/-- The render-engine state (chargen.rs `CharGen`).  The fixed
`character_set` and the terminal handle carry no information relevant to the
verified behaviour and are omitted. -/
structure CharGen where
  grid : Grid
  mix : Bool
  reveal : Bool
  margins : Margins

/-- The terminal-mode side effects performed by `CharGen::new`
(`enable_raw_mode` and the `execute!` block), as an explicit trace. -/
inductive TermEffect where
  | enableRawMode
  | enterAlternateScreen
  | clearAll
  | disableLineWrap
  | hideCursor
  | setTitle
deriving DecidableEq

/-- Embeds `CharGen::new` (chargen.rs): given the reported terminal size, either fail
with the too-small error — before any terminal-mode change — or construct the
blank chargen after performing the mode changes.  The second component is the
ordered trace of terminal-mode effects actually performed. -/
def CharGen.new (cols rows : Nat) : Except String CharGen × List TermEffect :=
  if cols < 41 ∨ rows < 25 then
    (Except.error ("Terminal too small - 41x25 required."), [])
  else
    (Except.ok { grid := fun _ _ => 0, mix := false, reveal := false,
                 margins := { top := 0, left := 0 } },
     [TermEffect.enableRawMode, TermEffect.enterAlternateScreen,
      TermEffect.clearAll, TermEffect.disableLineWrap,
      TermEffect.hideCursor, TermEffect.setTitle])

/-- Embeds `CharGen::insert_data` (chargen.rs): if the slice differs from the current
contents, overwrite it and render the row (`true`); otherwise do nothing
(`false`).  The Rust slice indexing panics when `row ≥ 26` or
`col + data.len() > 40`; that is embedded as `none`. -/
def CharGen.insert_data (cg : CharGen) (row col : Nat) (data : List Nat) :
    Option (CharGen × Bool) :=
  if row < 26 ∧ col + data.length ≤ 40 then
    if readBytes cg.grid row col data.length = data then
      some (cg, false)
    else
      some ({ cg with grid := writeBytes cg.grid row col data }, true)
  else
    none

/-- The total in-bounds core of `insert_data` (used to state what
`insert_data` returns once its bounds checks are known to pass). -/
def ins (cg : CharGen) (row col : Nat) (data : List Nat) : CharGen × Bool :=
  if readBytes cg.grid row col data.length = data then
    (cg, false)
  else
    ({ cg with grid := writeBytes cg.grid row col data }, true)

/-- Embeds `CharGen::clear_page` (chargen.rs): blank rows 1–24 of the grid
(`for row in 1..25 { grid[row] = [0; 40]; }`); the header row 0 and row 25
are untouched. -/
def CharGen.clear_page (cg : CharGen) : CharGen :=
  { cg with grid := fun r c =>
      if 1 ≤ r ∧ r < 25 ∧ c < 40 then 0 else cg.grid r c }

/-- Embeds `CharGen::auto_margins` (chargen.rs): recompute centering margins from the
reported terminal size. -/
def CharGen.auto_margins (cg : CharGen) (cols rows : Nat) : CharGen :=
  { cg with margins :=
      { left := if cols < 41 then 0 else (cols - 41) / 2,
        top := if rows < 26 then 0 else (rows - 26) - (rows - 26) / 2 } }

/-! ## The page selector (decoder.rs `PageInput`) -/

/-- Embeds `PageInput` (decoder.rs): the user's page selection and the 6-byte
on-screen indicator (`input: [u8; 6]`, embedded as `Fin 6 → Nat`). -/
structure PageInput where
  mag : Nat
  page : Nat
  hold : Bool
  manual_hold : Bool
  input : Fin 6 → Nat
  input_pos : Nat

/-- Embeds `Default for PageInput`: magazine 1, page 0x00, indicator " P100\x02",
cursor at position 2. -/
def PageInput.default : PageInput :=
  { mag := 1, page := 0, hold := false, manual_hold := false,
    input := ![32, 80, 49, 48, 48, 2], input_pos := 2 }

/-- Embeds `PageInput::cancel` (decoder.rs): rewrite the indicator to show the current
PageKey and reset the cursor to 2.  The hold flags are not touched. -/
def PageInput.cancel (s : PageInput) : PageInput :=
  { s with
    input := ![32, 80, u8_to_ascii s.mag, u8_to_ascii (s.page / 16),
               u8_to_ascii (s.page % 16), 2],
    input_pos := 2 }

/-- The `match (b, self.input_pos)` body of `PageInput::input` (decoder.rs):
digit dispatch after the manual-hold cancel.  The Rust arm
`(0..=0xf, 3 | 4)` stores `input[input_pos]` and increments the cursor; its
`input_pos == 5` commit test succeeds exactly in the `4` alternative, so the
arm is compiled as its two cases. -/
def PageInput.digit_match (s : PageInput) (b : Nat) : PageInput :=
  if 1 ≤ b ∧ b ≤ 8 ∧ s.input_pos = 2 then
    { s with input := ![2, 80, u8_to_ascii b, 46, 46, 7],
             input_pos := s.input_pos + 1, hold := true }
  else if b ≤ 15 ∧ s.input_pos = 3 then
    { s with input := Function.update s.input 3 (u8_to_ascii b),
             input_pos := s.input_pos + 1 }
  else if b ≤ 15 ∧ s.input_pos = 4 then
    { s with
      input := Function.update (Function.update
        (Function.update s.input 4 (u8_to_ascii b)) 0 32) 5 2,
      input_pos := 2,
      mag := Nat.land
        (ascii_to_u8 (Function.update s.input 4 (u8_to_ascii b) 2)) 7,
      page := Nat.lor
        (16 * ascii_to_u8 (Function.update s.input 4 (u8_to_ascii b) 3))
        (ascii_to_u8 (Function.update s.input 4 (u8_to_ascii b) 4)),
      hold := false }
  else s

/-- Embeds `PageInput::input` (decoder.rs): if `manual_hold`, first `cancel`, then
dispatch the digit. -/
def PageInput.input_digit (s : PageInput) (b : Nat) : PageInput :=
  (if s.manual_hold then s.cancel else s).digit_match b

/-- Embeds `PageInput::toggle_hold` (decoder.rs). -/
def PageInput.toggle_hold (s : PageInput) : PageInput :=
  (fun t => if t.hold = false then t.cancel
            else { t with input := ![1, 72, 79, 76, 68, 7] })
  { s with manual_hold := !s.manual_hold, hold := !s.manual_hold }

/-- Embeds `Button` (keymap.rs). -/
inductive Button where
  | Digit (x : Nat)
  | Fastext (i : Nat)
  | PageNext
  | PagePrev
  | Hold
  | Reveal
  | TimedPage
  | Mix

/-! ## The session decoder (decoder.rs `Decoder`) -/

/-- One grid operation performed by the decoder, in call order: an
`insert_data(row, col, data)` call or a `clear_page()` call. -/
inductive GridOp where
  | insert (row col : Nat) (data : List Nat)
  | clearPage
deriving DecidableEq

/-- Embeds `Decoder` (decoder.rs). -/
structure Decoder where
  header_matched : Bool
  header_locked : Bool
  pageinput : PageInput
  chargen : CharGen

/-- The slice `&packet[start .. start+n]` of a 42-byte packet (packets are
embedded as total index functions). -/
def pktSlice (p : Nat → Nat) (start n : Nat) : List Nat :=
  (List.range n).map fun i => p (start + i)

/-- The header-region write of `process_packet`: `(0, 31, &packet[33..])` when
already locked, `(0, 8, &packet[10..])` otherwise. -/
def hdrWrite (locked : Bool) (p : Nat → Nat) : Nat × List Nat :=
  if locked then (31, pktSlice p 33 9) else (8, pktSlice p 10 32)

/-- Embeds `Decoder::process_packet` (decoder.rs).  Returns the new state and the
ordered trace of grid operations; `none` would mean an (impossible)
out-of-bounds grid write. -/
def Decoder.process_packet (d : Decoder) (p : Nat → Nat) :
    Option (Decoder × List GridOp) :=
  if d.pageinput.hold = false ∧ (mrag (p 0) (p 1)).1 = d.pageinput.mag then
    if (mrag (p 0) (p 1)).2 = 0 then
      (d.chargen.insert_data 0 (hdrWrite d.header_locked p).1
          (hdrWrite d.header_locked p).2).bind fun s1 =>
        if hamming16_decode (p 2) (p 3) = d.pageinput.page then
          (s1.1.insert_data 0 7 [7]).bind fun s2 =>
            if 0 < Nat.land (control_bits (pktSlice p 4 8)) 1 then
              some ({ d with header_matched := true, header_locked := true,
                             chargen := s2.1.clear_page },
                    [GridOp.insert 0 (hdrWrite d.header_locked p).1
                       (hdrWrite d.header_locked p).2,
                     GridOp.insert 0 7 [7], GridOp.clearPage])
            else
              some ({ d with header_matched := true, header_locked := true,
                             chargen := s2.1 },
                    [GridOp.insert 0 (hdrWrite d.header_locked p).1
                       (hdrWrite d.header_locked p).2,
                     GridOp.insert 0 7 [7]])
        else
          some ({ d with header_matched := false, chargen := s1.1 },
                [GridOp.insert 0 (hdrWrite d.header_locked p).1
                   (hdrWrite d.header_locked p).2])
    else if 1 ≤ (mrag (p 0) (p 1)).2 ∧ (mrag (p 0) (p 1)).2 ≤ 24 then
      if d.header_matched = true then
        (d.chargen.insert_data (mrag (p 0) (p 1)).2 0 (pktSlice p 2 40)).bind
          fun s1 =>
            some ({ d with chargen := s1.1 },
                  [GridOp.insert (mrag (p 0) (p 1)).2 0 (pktSlice p 2 40)])
      else
        some (d, [])
    else
      some (d, [])
  else
    some (d, [])

/-- Embeds `Decoder::process_button` (decoder.rs).  `Reveal`/`Mix` toggle the
corresponding chargen flag (their full redraw touches no grid byte). -/
def Decoder.process_button (d : Decoder) (b : Button) :
    Option (Decoder × List GridOp) :=
  match b with
  | Button.Digit x =>
    (fun pi =>
      (d.chargen.insert_data 0 2 (List.ofFn pi.input)).bind fun s1 =>
        some ({ d with pageinput := pi, header_locked := false,
                       chargen := s1.1 },
              [GridOp.insert 0 2 (List.ofFn pi.input)]))
    (d.pageinput.input_digit x)
  | Button.Hold =>
    (fun pi =>
      (d.chargen.insert_data 0 2 (List.ofFn pi.input)).bind fun s1 =>
        if pi.hold = false then
          (s1.1.insert_data 0 7 [2]).bind fun s2 =>
            some ({ d with pageinput := pi, header_locked := false,
                           chargen := s2.1 },
                  [GridOp.insert 0 2 (List.ofFn pi.input),
                   GridOp.insert 0 7 [2]])
        else
          some ({ d with pageinput := pi, chargen := s1.1 },
                [GridOp.insert 0 2 (List.ofFn pi.input)]))
    d.pageinput.toggle_hold
  | Button.Reveal =>
    some ({ d with chargen := { d.chargen with reveal := !d.chargen.reveal } },
          [])
  | Button.Mix =>
    some ({ d with chargen := { d.chargen with mix := !d.chargen.mix } }, [])
  | _ => some (d, [])

/-- Embeds `Decoder::new` (decoder.rs): construct the chargen from the reported
terminal size, write the default indicator into the header row, and compute
the margins. -/
def Decoder.new (cols rows : Nat) : Option Decoder :=
  match (CharGen.new cols rows).1 with
  | Except.error _ => none
  | Except.ok cg =>
    (cg.insert_data 0 2 (List.ofFn PageInput.default.input)).bind fun s1 =>
      some { header_matched := false, header_locked := false,
             pageinput := PageInput.default,
             chargen := s1.1.auto_margins cols rows }

/-- One event of the consumer loop in `main.rs` that reaches the decoder. -/
inductive Ev where
  | pkt (bytes : List Nat)
  | btn (b : Button)

/-- One consumer-loop step (main.rs): dispatch a packet or a button. -/
def Decoder.step (d : Decoder) (e : Ev) : Option Decoder :=
  match e with
  | Ev.pkt l => (d.process_packet fun i => l.getD i 0).map Prod.fst
  | Ev.btn b => (d.process_button b).map Prod.fst

/-- Run a sequence of consumer-loop events. -/
def Decoder.run (d : Option Decoder) (es : List Ev) : Option Decoder :=
  es.foldl (fun od e => od.bind fun x => x.step e) d

/-! ## Helper lemmas -/

theorem pktSlice_length (p : Nat → Nat) (start n : Nat) :
    (pktSlice p start n).length = n := by
  simp [pktSlice]

theorem readBytes_length (g : Grid) (row col n : Nat) :
    (readBytes g row col n).length = n := by
  simp [readBytes]

theorem insert_data_some (cg : CharGen) (row col : Nat) (data : List Nat)
    (h1 : row < 26) (h2 : col + data.length ≤ 40) :
    CharGen.insert_data cg row col data = some (ins cg row col data) := by
  unfold CharGen.insert_data ins
  rw [if_pos ⟨h1, h2⟩]
  split <;> rfl

theorem readBytes_writeBytes (g : Grid) (row col : Nat) (data : List Nat) :
    readBytes (writeBytes g row col data) row col data.length = data := by
  apply List.ext_getElem
  · simp [readBytes]
  · intro i h1 h2
    have hi : i < data.length := by simpa [readBytes] using h1
    simp only [readBytes, List.getElem_map, List.getElem_range]
    unfold writeBytes
    rw [if_pos ⟨rfl, by omega, by omega⟩]
    have hc : col + i - col = i := by omega
    rw [hc, List.getD_eq_getElem data 0 hi]

theorem ins_readBytes (cg : CharGen) (row col : Nat) (data : List Nat) :
    readBytes (ins cg row col data).1.grid row col data.length = data := by
  unfold ins
  split
  · next h => exact h
  · exact readBytes_writeBytes cg.grid row col data

theorem ascii_u8_roundtrip : ∀ b < 16, ascii_to_u8 (u8_to_ascii b) = b := by
  decide

theorem ascii_to_u8_lt (c : Nat) : ascii_to_u8 c < 16 := by
  unfold ascii_to_u8
  split
  · omega
  split
  · omega
  split <;> omega

theorem lor_sixteen : ∀ h < 16, ∀ l < 16, Nat.lor (16 * h) l = 16 * h + l := by
  decide

theorem land_seven : ∀ m < 16, Nat.land m 7 = m % 8 := by
  decide

theorem ins_of_eq (cg : CharGen) (row col : Nat) (data : List Nat)
    (h : readBytes cg.grid row col data.length = data) :
    ins cg row col data = (cg, false) := by
  unfold ins
  rw [if_pos h]

theorem ins_of_ne (cg : CharGen) (row col : Nat) (data : List Nat)
    (h : ¬ readBytes cg.grid row col data.length = data) :
    ins cg row col data =
      ({ cg with grid := writeBytes cg.grid row col data }, true) := by
  unfold ins
  rw [if_neg h]

theorem hdrWrite_bound (locked : Bool) (p : Nat → Nat) :
    (hdrWrite locked p).1 + (hdrWrite locked p).2.length ≤ 40 := by
  unfold hdrWrite
  cases locked <;> simp [pktSlice_length]

theorem insert_hdr (cg : CharGen) (locked : Bool) (p : Nat → Nat) :
    cg.insert_data 0 (hdrWrite locked p).1 (hdrWrite locked p).2 =
      some (ins cg 0 (hdrWrite locked p).1 (hdrWrite locked p).2) :=
  insert_data_some cg 0 _ _ (by omega) (hdrWrite_bound locked p)

theorem insert_lock (cg : CharGen) :
    cg.insert_data 0 7 [7] = some (ins cg 0 7 [7]) :=
  insert_data_some cg 0 7 [7] (by omega) (by simp)

theorem insert_unlock (cg : CharGen) :
    cg.insert_data 0 7 [2] = some (ins cg 0 7 [2]) :=
  insert_data_some cg 0 7 [2] (by omega) (by simp)

theorem insert_body (cg : CharGen) (row : Nat) (p : Nat → Nat)
    (h1 : row < 26) :
    cg.insert_data row 0 (pktSlice p 2 40) =
      some (ins cg row 0 (pktSlice p 2 40)) :=
  insert_data_some cg row 0 _ h1 (by simp [pktSlice_length])

theorem insert_indicator (cg : CharGen) (inp : Fin 6 → Nat) :
    cg.insert_data 0 2 (List.ofFn inp) = some (ins cg 0 2 (List.ofFn inp)) :=
  insert_data_some cg 0 2 _ (by omega) (by simp)

theorem input_digit_of_mh_false (s : PageInput) (b : Nat)
    (h : s.manual_hold = false) : s.input_digit b = s.digit_match b := by
  unfold PageInput.input_digit
  rw [if_neg (by simp [h])]

theorem input_digit_of_mh_true (s : PageInput) (b : Nat)
    (h : s.manual_hold = true) : s.input_digit b = s.cancel.digit_match b := by
  unfold PageInput.input_digit
  rw [if_pos h]

theorem digit_match_mag_digit (s : PageInput) (b : Nat)
    (h1 : 1 ≤ b) (h2 : b ≤ 8) (hpos : s.input_pos = 2) :
    s.digit_match b =
      { s with input := ![2, 80, u8_to_ascii b, 46, 46, 7],
               input_pos := s.input_pos + 1, hold := true } := by
  unfold PageInput.digit_match
  rw [if_pos ⟨h1, h2, hpos⟩]

theorem digit_match_hi_nibble (s : PageInput) (b : Nat)
    (hb : b ≤ 15) (hpos : s.input_pos = 3) :
    s.digit_match b =
      { s with input := Function.update s.input 3 (u8_to_ascii b),
               input_pos := s.input_pos + 1 } := by
  unfold PageInput.digit_match
  rw [if_neg (by omega), if_pos ⟨hb, hpos⟩]

theorem digit_match_commit (s : PageInput) (b : Nat)
    (hb : b ≤ 15) (hpos : s.input_pos = 4) :
    s.digit_match b =
      { s with
        input := Function.update (Function.update
          (Function.update s.input 4 (u8_to_ascii b)) 0 32) 5 2,
        input_pos := 2,
        mag := Nat.land
          (ascii_to_u8 (Function.update s.input 4 (u8_to_ascii b) 2)) 7,
        page := Nat.lor
          (16 * ascii_to_u8 (Function.update s.input 4 (u8_to_ascii b) 3))
          (ascii_to_u8 (Function.update s.input 4 (u8_to_ascii b) 4)),
        hold := false } := by
  unfold PageInput.digit_match
  rw [if_neg (by omega), if_neg (by omega), if_pos ⟨hb, hpos⟩]

theorem digit_match_skip (s : PageInput) (b : Nat)
    (h1 : ¬ (1 ≤ b ∧ b ≤ 8 ∧ s.input_pos = 2))
    (h2 : ¬ (b ≤ 15 ∧ s.input_pos = 3))
    (h3 : ¬ (b ≤ 15 ∧ s.input_pos = 4)) :
    s.digit_match b = s := by
  unfold PageInput.digit_match
  rw [if_neg h1, if_neg h2, if_neg h3]

theorem digit_match_manual_hold (s : PageInput) (b : Nat) :
    (s.digit_match b).manual_hold = s.manual_hold := by
  unfold PageInput.digit_match
  split
  · rfl
  split
  · rfl
  split <;> rfl

/-- A concrete blank chargen used by witnesses. -/
def cgZero : CharGen :=
  { grid := fun _ _ => 0, mix := false, reveal := false,
    margins := { top := 0, left := 0 } }

/-- A concrete decoder state used by witnesses. -/
def dZero : Decoder :=
  { header_matched := false, header_locked := false,
    pageinput := PageInput.default, chargen := cgZero }

/-! ## Claims -/

/-- C10: for every state and packet, `process_packet` never modifies the page
selector: the `PageInput` record (magazine, page, hold, manualHold, indicator
buffer and cursor) is identical before and after packet processing. -/
theorem C10_process_packet_preserves_pageinput (d : Decoder) (p : Nat → Nat) :
    (d.process_packet p).map (fun x => x.1.pageinput) = some d.pageinput := by
  unfold Decoder.process_packet
  split
  · split
    · rw [insert_hdr, Option.some_bind]
      split
      · rw [insert_lock, Option.some_bind]
        split <;> rfl
      · rfl
    · split
      · next hrow =>
        split
        · rw [insert_body _ _ _ (by omega), Option.some_bind]
          rfl
        · rfl
      · rfl
  · rfl

/-- C8: `process_packet` is total: for every state and every packet it
returns (no out-of-bounds grid access, embedded as `none`), and a decoded
row outside 0..24 leaves the state unchanged with no grid operation. -/
theorem C8_process_packet_total (d : Decoder) (p : Nat → Nat) :
    (d.process_packet p).isSome = true ∧
      (25 ≤ (mrag (p 0) (p 1)).2 → d.process_packet p = some (d, [])) := by
  constructor
  · unfold Decoder.process_packet
    split
    · split
      · rw [insert_hdr, Option.some_bind]
        split
        · rw [insert_lock, Option.some_bind]
          split <;> rfl
        · rfl
      · split
        · next hrow =>
          split
          · rw [insert_body _ _ _ (by omega), Option.some_bind]
            rfl
          · rfl
        · rfl
    · rfl
  · intro hrow
    unfold Decoder.process_packet
    split
    · rw [if_neg (by omega), if_neg (by omega)]
    · rfl

/-- C8 witness: at a concrete state and a packet whose address decodes to
row 25, processing returns and changes nothing. -/
theorem C8_witness :
    dZero.process_packet (fun i => [128, 160].getD i 0) = some (dZero, []) :=
  (C8_process_packet_total dZero (fun i => [128, 160].getD i 0)).2 (by decide)

/-- C9: for every reported terminal size with fewer than 41 columns or fewer
than 25 rows, `CharGen::new` returns the too-small error and its trace of
terminal-mode effects is empty: raw mode is never enabled and the alternate
screen is never entered. -/
theorem C9_small_terminal_fails_without_effects (cols rows : Nat)
    (h : cols < 41 ∨ rows < 25) :
    (CharGen.new cols rows).1 =
        Except.error ("Terminal too small - 41x25 required.") ∧
      (CharGen.new cols rows).2 = [] ∧
      TermEffect.enableRawMode ∉ (CharGen.new cols rows).2 ∧
      TermEffect.enterAlternateScreen ∉ (CharGen.new cols rows).2 := by
  unfold CharGen.new
  rw [if_pos h]
  exact ⟨rfl, rfl, by simp, by simp⟩

/-- C9 witness: a 40×30 terminal is rejected with no terminal-mode effect. -/
theorem C9_witness :
    (CharGen.new 40 30).1 =
        Except.error ("Terminal too small - 41x25 required.") ∧
      (CharGen.new 40 30).2 = [] ∧
      TermEffect.enableRawMode ∉ (CharGen.new 40 30).2 ∧
      TermEffect.enterAlternateScreen ∉ (CharGen.new 40 30).2 :=
  C9_small_terminal_fails_without_effects 40 30 (by omega)

/-- C7: writing bytes identical to the current contents of a grid location is
a no-op with no render call, so writing the same bytes twice in succession
renders exactly once — on the first write, and only if it differed. -/
theorem C7_insert_data_idempotent (cg : CharGen) (row col : Nat)
    (data : List Nat) (h1 : row < 26) (h2 : col + data.length ≤ 40) :
    (readBytes cg.grid row col data.length = data →
        cg.insert_data row col data = some (cg, false)) ∧
      cg.insert_data row col data = some (ins cg row col data) ∧
      (ins cg row col data).1.insert_data row col data =
        some ((ins cg row col data).1, false) ∧
      (readBytes cg.grid row col data.length ≠ data →
        (ins cg row col data).2 = true) := by
  refine ⟨fun h => ?_, insert_data_some cg row col data h1 h2, ?_, fun h => ?_⟩
  · rw [insert_data_some cg row col data h1 h2, ins_of_eq cg row col data h]
  · rw [insert_data_some _ row col data h1 h2,
        ins_of_eq _ row col data (ins_readBytes cg row col data)]
  · rw [ins_of_ne cg row col data h]

/-- C7 witness: writing [1,2,3] into the blank grid renders once; writing it
again renders no further time. -/
theorem C7_witness :
    (readBytes cgZero.grid 3 5 [1, 2, 3].length = [1, 2, 3] →
        cgZero.insert_data 3 5 [1, 2, 3] = some (cgZero, false)) ∧
      cgZero.insert_data 3 5 [1, 2, 3] = some (ins cgZero 3 5 [1, 2, 3]) ∧
      (ins cgZero 3 5 [1, 2, 3]).1.insert_data 3 5 [1, 2, 3] =
        some ((ins cgZero 3 5 [1, 2, 3]).1, false) ∧
      (readBytes cgZero.grid 3 5 [1, 2, 3].length ≠ [1, 2, 3] →
        (ins cgZero 3 5 [1, 2, 3]).2 = true) :=
  C7_insert_data_idempotent cgZero 3 5 [1, 2, 3] (by omega) (by simp)

/-- C1 counterexample: from the freshly constructed decoder, a matching header
locks the session; a `Digit 0` button press (an ignored digit) clears
`header_locked` while `header_matched` stays true; the next body-row packet of
the selected magazine (mag 1, row 1, first data byte 77) is then written into
grid row 1 even though the session is not locked — refuting "written iff
locked". -/
theorem C1_counterexample :
    ((Decoder.run (Decoder.new 80 30) [Ev.pkt [2], Ev.btn (Button.Digit 0)]).map
        fun d => (d.pageinput.hold, d.pageinput.mag, d.header_matched,
                  d.header_locked, d.chargen.grid 1 0)) =
      some (false, 1, true, false, 0) ∧
    mrag 130 0 = (1, 1) ∧
    ((Decoder.run (Decoder.new 80 30)
        [Ev.pkt [2], Ev.btn (Button.Digit 0), Ev.pkt [130, 0, 77]]).map
        fun d => (d.chargen.grid 1 0, d.header_locked)) = some (77, false) := by
  decide

/-- C1 amended: a body-row packet of the selected magazine processed while
hold is false is written into that grid row if and only if the session's
`header_matched` flag is true (not `header_locked`); a body-row packet
arriving while `header_matched` is false leaves the state unchanged. -/
theorem C1_amended_body_row_iff_matched (d : Decoder) (p : Nat → Nat)
    (hhold : d.pageinput.hold = false)
    (hmag : (mrag (p 0) (p 1)).1 = d.pageinput.mag)
    (hr1 : 1 ≤ (mrag (p 0) (p 1)).2) (hr2 : (mrag (p 0) (p 1)).2 ≤ 24) :
    (d.header_matched = false → d.process_packet p = some (d, [])) ∧
    (d.header_matched = true →
      d.process_packet p =
        some ({ d with chargen :=
                  (ins d.chargen (mrag (p 0) (p 1)).2 0 (pktSlice p 2 40)).1 },
              [GridOp.insert (mrag (p 0) (p 1)).2 0 (pktSlice p 2 40)]) ∧
      readBytes (ins d.chargen (mrag (p 0) (p 1)).2 0 (pktSlice p 2 40)).1.grid
          (mrag (p 0) (p 1)).2 0 40 = pktSlice p 2 40) := by
  have hc : d.pageinput.hold = false ∧ (mrag (p 0) (p 1)).1 = d.pageinput.mag :=
    ⟨hhold, hmag⟩
  constructor
  · intro hm
    unfold Decoder.process_packet
    rw [if_pos hc, if_neg (by omega), if_pos ⟨hr1, hr2⟩, if_neg (by simp [hm])]
  · intro hm
    constructor
    · unfold Decoder.process_packet
      rw [if_pos hc, if_neg (by omega), if_pos ⟨hr1, hr2⟩, if_pos hm,
          insert_body _ _ _ (by omega), Option.some_bind]
    · have hrb := ins_readBytes d.chargen (mrag (p 0) (p 1)).2 0 (pktSlice p 2 40)
      rwa [pktSlice_length] at hrb

/-- C1 witness: at a concrete unmatched state, the body-row packet
(mag 1, row 1) leaves the decoder unchanged. -/
theorem C1_witness :
    dZero.process_packet (fun i => [130, 0, 77].getD i 0) = some (dZero, []) :=
  (C1_amended_body_row_iff_matched dZero (fun i => [130, 0, 77].getD i 0)
    (by decide) (by decide) (by decide) (by decide)).1 rfl

/-- C2 counterexample: after a matching header (decoded page 0) the user
commits the new selection page 0x01; the most recently processed header's page
(0) now differs from the selected page (1), yet `header_matched` is still
true — refuting "matched exactly when the last header's page equals the
current PageKey". -/
theorem C2_counterexample :
    hamming16_decode 0 0 = 0 ∧
    ((Decoder.run (Decoder.new 80 30)
        [Ev.pkt [2], Ev.btn (Button.Digit 1), Ev.btn (Button.Digit 0),
         Ev.btn (Button.Digit 1)]).map
        fun d => (d.pageinput.mag, d.pageinput.page, d.pageinput.hold,
                  d.pageinput.input_pos, d.header_matched)) =
      some (1, 1, false, 2, true) := by
  decide

/-- C2 amended: `header_matched` is updated only by header packets — a header
of the selected magazine processed with hold false sets it to whether the
decoded page equals the selected page at that moment — and `process_button`
never changes it, so committing a new page selection leaves `matched` stale
rather than recomputing it. -/
theorem C2_amended_matched_updates :
    (∀ (d : Decoder) (p : Nat → Nat),
      d.pageinput.hold = false →
      (mrag (p 0) (p 1)).1 = d.pageinput.mag →
      (mrag (p 0) (p 1)).2 = 0 →
      (hamming16_decode (p 2) (p 3) = d.pageinput.page →
        (d.process_packet p).map (fun x => x.1.header_matched) = some true) ∧
      (hamming16_decode (p 2) (p 3) ≠ d.pageinput.page →
        (d.process_packet p).map (fun x => x.1.header_matched) = some false)) ∧
    (∀ (d : Decoder) (b : Button),
      (d.process_button b).map (fun x => x.1.header_matched) =
        some d.header_matched) := by
  constructor
  · intro d p hhold hmag hrow
    have hc : d.pageinput.hold = false ∧
        (mrag (p 0) (p 1)).1 = d.pageinput.mag := ⟨hhold, hmag⟩
    constructor
    · intro hp
      unfold Decoder.process_packet
      rw [if_pos hc, if_pos hrow, insert_hdr, Option.some_bind, if_pos hp,
          insert_lock, Option.some_bind]
      split <;> rfl
    · intro hp
      unfold Decoder.process_packet
      rw [if_pos hc, if_pos hrow, insert_hdr, Option.some_bind, if_neg hp]
      rfl
  · intro d b
    cases b
    case Digit x =>
      unfold Decoder.process_button
      dsimp only
      rw [insert_indicator, Option.some_bind]
      rfl
    case Hold =>
      unfold Decoder.process_button
      dsimp only
      rw [insert_indicator, Option.some_bind]
      split
      · rw [insert_unlock, Option.some_bind]
        rfl
      · rfl
    all_goals rfl

/-- C2 witness: the matching header packet [2,0,0,...] sets `matched` at the
initial state. -/
theorem C2_witness :
    ((dZero.process_packet fun i => [2].getD i 0).map
      fun x => x.1.header_matched) = some true :=
  (C2_amended_matched_updates.1 dZero (fun i => [2].getD i 0)
    (by decide) (by decide) (by decide)).1 (by decide)

/-- C3 counterexample: toggle Hold from the initial state (entering manual
hold), then press digit 3: afterwards `manual_hold` and `hold` are still true
and the cursor is at 3 (a page entry is in progress) — refuting "manualHold
and hold become false" and "manual hold and page entry are never
simultaneously active". -/
theorem C3_counterexample :
    ((Decoder.run (Decoder.new 80 30)
        [Ev.btn Button.Hold, Ev.btn (Button.Digit 3)]).map
        fun d => (d.pageinput.manual_hold, d.pageinput.hold,
                  d.pageinput.input_pos, List.ofFn d.pageinput.input)) =
      some (true, true, 3, [2, 80, 51, 46, 46, 7]) := by
  decide

/-- C3 amended: while `manual_hold` is true a digit press first runs `cancel`
— which restores the indicator to the current PageKey and resets the cursor
to 2 but does not touch the hold flags — and only then interprets the digit;
`manual_hold` therefore remains true after the digit press, so manual hold
and page entry can be simultaneously active. -/
theorem C3_amended_digit_cancels_display_only (s : PageInput) (b : Nat)
    (h : s.manual_hold = true) :
    s.input_digit b = s.cancel.digit_match b ∧
    s.cancel.manual_hold = true ∧
    s.cancel.hold = s.hold ∧
    s.cancel.input_pos = 2 ∧
    s.cancel.input = ![32, 80, u8_to_ascii s.mag, u8_to_ascii (s.page / 16),
                       u8_to_ascii (s.page % 16), 2] ∧
    (s.input_digit b).manual_hold = true := by
  refine ⟨input_digit_of_mh_true s b h, h, rfl, rfl, rfl, ?_⟩
  rw [input_digit_of_mh_true s b h, digit_match_manual_hold]
  exact h

/-- C3 witness: pressing digit 3 in the manual-hold state entered from the
default selector leaves `manual_hold` true. -/
theorem C3_witness :
    (PageInput.default.toggle_hold.input_digit 3).manual_hold = true :=
  (C3_amended_digit_cancels_display_only PageInput.default.toggle_hold 3
    (by decide)).2.2.2.2.2

/-- C4 counterexample: from the freshly constructed decoder, a matching header
locks the session (and writes the lock marker 7 at grid cell (0,7)); pressing
digit 0 — outside the accepted range at cursor position 2 — nevertheless
clears `header_locked` and rewrites grid cell (0,7) back to 2 — refuting
"changes no state at all". -/
theorem C4_counterexample :
    ((Decoder.run (Decoder.new 80 30) [Ev.pkt [2]]).map
        fun d => (d.header_locked, d.pageinput.input_pos,
                  d.pageinput.manual_hold, d.chargen.grid 0 7)) =
      some (true, 2, false, 7) ∧
    ((Decoder.run (Decoder.new 80 30) [Ev.pkt [2], Ev.btn (Button.Digit 0)]).map
        fun d => (d.header_locked, d.chargen.grid 0 7)) =
      some (false, 2) := by
  decide

/-- C4 amended: a digit outside the accepted range for the current cursor
position leaves the whole page selector unchanged (provided manual hold is
off), and the grid is unchanged where it already displays the indicator, but
the session's `header_locked` flag is unconditionally cleared by the digit
button. -/
theorem C4_amended_ignored_digit_still_unlocks (d : Decoder) (b : Nat)
    (hmh : d.pageinput.manual_hold = false)
    (h1 : ¬ (1 ≤ b ∧ b ≤ 8 ∧ d.pageinput.input_pos = 2))
    (h2 : ¬ (b ≤ 15 ∧ d.pageinput.input_pos = 3))
    (h3 : ¬ (b ≤ 15 ∧ d.pageinput.input_pos = 4))
    (hgrid : readBytes d.chargen.grid 0 2 6 = List.ofFn d.pageinput.input) :
    d.pageinput.input_digit b = d.pageinput ∧
    d.process_button (Button.Digit b) =
      some ({ d with header_locked := false },
            [GridOp.insert 0 2 (List.ofFn d.pageinput.input)]) := by
  have hpi : d.pageinput.input_digit b = d.pageinput := by
    rw [input_digit_of_mh_false _ b hmh, digit_match_skip _ b h1 h2 h3]
  refine ⟨hpi, ?_⟩
  have hgrid6 : readBytes d.chargen.grid 0 2
      (List.ofFn d.pageinput.input).length = List.ofFn d.pageinput.input := by
    rw [List.length_ofFn]
    exact hgrid
  simp only [Decoder.process_button, hpi]
  rw [insert_indicator, Option.some_bind, ins_of_eq _ _ _ _ hgrid6]

/-- A concrete decoder whose grid row 0 displays the default indicator (used
by the C4 witness). -/
def dInd : Decoder :=
  { dZero with chargen := { cgZero with
      grid := writeBytes cgZero.grid 0 2 [32, 80, 49, 48, 48, 2] } }

/-- C4 witness: pressing digit 0 at cursor position 2 leaves the selector
unchanged but still produces the unlock-and-reassert-indicator effect. -/
theorem C4_witness :
    dInd.pageinput.input_digit 0 = dInd.pageinput ∧
    dInd.process_button (Button.Digit 0) =
      some ({ dInd with header_locked := false },
            [GridOp.insert 0 2 (List.ofFn dInd.pageinput.input)]) :=
  C4_amended_ignored_digit_still_unlocks dInd 0 (by decide) (by decide)
    (by decide) (by decide) (by decide)

/-- C5 counterexample: from the freshly constructed decoder, a header packet
of the selected magazine with matching page and the erase-page bit set
produces the grid-operation trace
`[insert 0 8 …, insert 0 7 [7], clearPage]`: the header-region bytes
(columns 8–39, which include the trailing header text) are written at trace
index 0 and the body-row clear happens last, at index 2 — refuting "clears
… strictly before that header packet's own trailing header text bytes are
written". -/
theorem C5_counterexample :
    ((Decoder.new 80 30).bind fun d =>
        (d.process_packet fun i => [2, 0, 0, 0, 2].getD i 0).map Prod.snd) =
      some [GridOp.insert 0 8 (List.replicate 32 0), GridOp.insert 0 7 [7],
            GridOp.clearPage] ∧
    0 < Nat.land
      (control_bits (pktSlice (fun i => [2, 0, 0, 0, 2].getD i 0) 4 8)) 1 ∧
    mrag 2 0 = (1, 0) ∧
    hamming16_decode 0 0 = 0 ∧
    ((Decoder.new 80 30).map fun d =>
        (d.pageinput.mag, d.pageinput.page, d.pageinput.hold,
         d.header_locked)) = some (1, 0, false, false) ∧
    [GridOp.insert 0 8 (List.replicate 32 0), GridOp.insert 0 7 [7],
      GridOp.clearPage].indexOf GridOp.clearPage = 2 ∧
    [GridOp.insert 0 8 (List.replicate 32 0), GridOp.insert 0 7 [7],
      GridOp.clearPage].indexOf (GridOp.insert 0 8 (List.replicate 32 0)) = 0 := by
  decide

/-- C5 amended: a matching header with the erase-page bit set performs, in
order, the header-region write into row 0, the lock-marker write, and only
then the body clear: `clear_page` runs strictly after the header text bytes
are written (the final grid nevertheless has all body-row cells blank, and
row 0 is untouched by the clear). -/
theorem C5_amended_clear_after_header_write (d : Decoder) (p : Nat → Nat)
    (hhold : d.pageinput.hold = false)
    (hmag : (mrag (p 0) (p 1)).1 = d.pageinput.mag)
    (hrow : (mrag (p 0) (p 1)).2 = 0)
    (hpage : hamming16_decode (p 2) (p 3) = d.pageinput.page)
    (herase : 0 < Nat.land (control_bits (pktSlice p 4 8)) 1) :
    d.process_packet p =
      some ({ d with header_matched := true, header_locked := true,
                     chargen := (ins (ins d.chargen 0
                       (hdrWrite d.header_locked p).1
                       (hdrWrite d.header_locked p).2).1 0 7 [7]).1.clear_page },
            [GridOp.insert 0 (hdrWrite d.header_locked p).1
               (hdrWrite d.header_locked p).2,
             GridOp.insert 0 7 [7], GridOp.clearPage]) ∧
    (∀ r c, 1 ≤ r → r < 25 → c < 40 →
      (d.process_packet p).map (fun x => x.1.chargen.grid r c) = some 0) := by
  have hc : d.pageinput.hold = false ∧
      (mrag (p 0) (p 1)).1 = d.pageinput.mag := ⟨hhold, hmag⟩
  have hres : d.process_packet p =
      some ({ d with header_matched := true, header_locked := true,
                     chargen := (ins (ins d.chargen 0
                       (hdrWrite d.header_locked p).1
                       (hdrWrite d.header_locked p).2).1 0 7 [7]).1.clear_page },
            [GridOp.insert 0 (hdrWrite d.header_locked p).1
               (hdrWrite d.header_locked p).2,
             GridOp.insert 0 7 [7], GridOp.clearPage]) := by
    unfold Decoder.process_packet
    rw [if_pos hc, if_pos hrow, insert_hdr, Option.some_bind, if_pos hpage,
        insert_lock, Option.some_bind, if_pos herase]
  refine ⟨hres, ?_⟩
  intro r c hr1 hr2 hcc
  rw [hres, Option.map_some']
  show some ((CharGen.clear_page _).grid r c) = some 0
  unfold CharGen.clear_page
  dsimp only
  have hcond : 1 ≤ r ∧ r < 25 ∧ c < 40 := ⟨hr1, hr2, hcc⟩
  rw [if_pos hcond]

/-- C5 witness: at the concrete initial-style state and the concrete
erase-bit header packet, the trace ends with the clear. -/
theorem C5_witness :
    dZero.process_packet (fun i => [2, 0, 0, 0, 2].getD i 0) =
      some ({ dZero with header_matched := true, header_locked := true,
                         chargen := (ins (ins dZero.chargen 0
                           (hdrWrite dZero.header_locked
                             (fun i => [2, 0, 0, 0, 2].getD i 0)).1
                           (hdrWrite dZero.header_locked
                             (fun i => [2, 0, 0, 0, 2].getD i 0)).2).1
                           0 7 [7]).1.clear_page },
            [GridOp.insert 0
               (hdrWrite dZero.header_locked (fun i => [2, 0, 0, 0, 2].getD i 0)).1
               (hdrWrite dZero.header_locked (fun i => [2, 0, 0, 0, 2].getD i 0)).2,
             GridOp.insert 0 7 [7], GridOp.clearPage]) :=
  (C5_amended_clear_after_header_write dZero (fun i => [2, 0, 0, 0, 2].getD i 0)
    (by decide) (by decide) (by decide) (by decide) (by decide)).1

/-- C6: from the Idle state (cursor 2, manual hold off), entering a magazine
digit m ∈ 1..8 and two hex digits h, l commits magazine `m % 8` (so 8 maps
to 0) and page `16*h + l`, clears hold, and returns the cursor to 2; the
concrete sequence [3, 2, 0xA] commits magazine 3, page 0x2A. -/
theorem C6_digit_entry_commit (s : PageInput) (m h l : Nat)
    (hidle : s.input_pos = 2) (hmh : s.manual_hold = false)
    (hm1 : 1 ≤ m) (hm2 : m ≤ 8) (hh : h ≤ 15) (hl : l ≤ 15) :
    (((s.input_digit m).input_digit h).input_digit l).mag = m % 8 ∧
    (((s.input_digit m).input_digit h).input_digit l).page = 16 * h + l ∧
    (((s.input_digit m).input_digit h).input_digit l).hold = false ∧
    (((s.input_digit m).input_digit h).input_digit l).input_pos = 2 ∧
    (m = 8 → (((s.input_digit m).input_digit h).input_digit l).mag = 0) ∧
    ((((PageInput.default.input_digit 3).input_digit 2).input_digit 10).mag,
     (((PageInput.default.input_digit 3).input_digit 2).input_digit 10).page,
     (((PageInput.default.input_digit 3).input_digit 2).input_digit 10).hold,
     (((PageInput.default.input_digit 3).input_digit 2).input_digit 10).input_pos)
      = (3, 42, false, 2) := by
  rcases s with ⟨mag0, page0, hold0, mh0, inp0, pos0⟩
  simp only at hidle hmh
  subst hidle
  subst hmh
  rw [input_digit_of_mh_false _ m rfl, digit_match_mag_digit _ m hm1 hm2 rfl]
  rw [input_digit_of_mh_false
        ⟨mag0, page0, true, false, ![2, 80, u8_to_ascii m, 46, 46, 7], 2 + 1⟩ h rfl,
      digit_match_hi_nibble _ h hh rfl]
  rw [input_digit_of_mh_false
        ⟨mag0, page0, true, false,
         Function.update ![2, 80, u8_to_ascii m, 46, 46, 7] 3 (u8_to_ascii h),
         2 + 1 + 1⟩ l rfl,
      digit_match_commit _ l hl rfl]
  have hmag : (Nat.land (ascii_to_u8 (Function.update
      (Function.update ![2, 80, u8_to_ascii m, 46, 46, 7] 3 (u8_to_ascii h))
      4 (u8_to_ascii l) 2)) 7) = m % 8 := by
    rw [Function.update_noteq (by decide), Function.update_noteq (by decide)]
    have hv : (![2, 80, u8_to_ascii m, 46, 46, 7] : Fin 6 → Nat) 2 =
        u8_to_ascii m := rfl
    rw [hv, ascii_u8_roundtrip m (by omega)]
    exact land_seven m (by omega)
  refine ⟨hmag, ?_, rfl, rfl, fun h8 => ?_, by decide⟩
  · dsimp only
    rw [Function.update_noteq (by decide), Function.update_same,
        Function.update_same]
    rw [ascii_u8_roundtrip h (by omega), ascii_u8_roundtrip l (by omega)]
    exact lor_sixteen h (by omega) l (by omega)
  · rw [hmag, h8]

/-- C6 witness: the sequence [3, 2, 0xA] from the default Idle selector. -/
theorem C6_witness :
    (((PageInput.default.input_digit 3).input_digit 2).input_digit 10).mag
        = 3 % 8 ∧
    (((PageInput.default.input_digit 3).input_digit 2).input_digit 10).page
        = 16 * 2 + 10 ∧
    (((PageInput.default.input_digit 3).input_digit 2).input_digit 10).hold
        = false ∧
    (((PageInput.default.input_digit 3).input_digit 2).input_digit 10).input_pos
        = 2 ∧
    (3 = 8 →
      (((PageInput.default.input_digit 3).input_digit 2).input_digit 10).mag
        = 0) ∧
    ((((PageInput.default.input_digit 3).input_digit 2).input_digit 10).mag,
     (((PageInput.default.input_digit 3).input_digit 2).input_digit 10).page,
     (((PageInput.default.input_digit 3).input_digit 2).input_digit 10).hold,
     (((PageInput.default.input_digit 3).input_digit 2).input_digit 10).input_pos)
      = (3, 42, false, 2) :=
  C6_digit_entry_commit PageInput.default 3 2 10 rfl rfl (by omega) (by omega)
    (by omega) (by omega)

end Ttxi
